import Mathlib

/-!
Shallow embedding of the Simon game engine in src/main.js.

The mutable `state` object becomes `GameState`; every engine operation
(recordResult, getRecentAccuracy, pushReaction, stepDuration, addScore,
enablePads, showSequence, finalizeRun, nextRound, handlePadPress, the main
button handler paths and resetToIdleUI) becomes a pure function on
`GameState` (together with the persisted leaderboard list where the source
touches it).  Calls to `performance.now()` / `Date.now()` and the random
`Math.floor(Math.random()*4)` draw become explicit parameters.  The DOM and
audio side effects are dropped; DOM reads that feed the logic (the player
name, the strict checkbox, the tone preset multiplier) become parameters.
Numbers are modelled as rationals (`ℚ`) where the source divides, and as
`Nat` where the source only counts.
-/

namespace Simon

/-- Engine modes, from the state machine in src/main.js. -/
inductive Mode
| idle
| playing
| gameending
| gameover
deriving DecidableEq, Repr

/-- Sliding accuracy window capacity (`state.recentWindow = 20`). -/
def recentWindow : Nat := 20

/-- Reaction-time history capacity (`state.rtWindow = 24`). -/
def rtWindow : Nat := 24

/-- The engine state object (`const state = {...}` in src/main.js).
Window sizes are constant in the source and are lifted to the two
definitions above.  Times are in milliseconds. -/
structure GameState where
  mode : Mode := .idle
  sequence : List Nat := []
  accepting : Bool := false
  inputIndex : Nat := 0
  round : Nat := 0
  showing : Bool := false
  recent : List Nat := []
  runInputs : Nat := 0
  runCorrect : Nat := 0
  completedRounds : Nat := 0
  rts : List Nat := []
  padEnableTs : Nat := 0
deriving DecidableEq, Repr

/-- Source `recordResult(ok)`: push a correctness bit, shift the oldest out
when the window exceeds capacity, and tally the run counters. -/
def recordResult (ok : Bool) (st : GameState) : GameState :=
  let recent1 := st.recent ++ [if ok then 1 else 0]
  let recent2 := if recentWindow < recent1.length then recent1.tail else recent1
  { st with recent := recent2,
            runInputs := st.runInputs + 1,
            runCorrect := st.runCorrect + if ok then 1 else 0 }

/-- Source `getRecentAccuracy()`: mean of the window, or the neutral 0.85
baseline when the window is empty. -/
def getRecentAccuracy (st : GameState) : ℚ :=
  if st.recent.length = 0 then 17/20
  else (st.recent.sum : ℚ) / (st.recent.length : ℚ)

/-- Source `pushReaction(ms)`: clamp to [50, 2000], push, FIFO-evict past
`rtWindow` entries. -/
def pushReaction (ms : Nat) (st : GameState) : GameState :=
  let clamped := max 50 (min 2000 ms)
  let rts1 := st.rts ++ [clamped]
  { st with rts := if rtWindow < rts1.length then rts1.tail else rts1 }

/-- Source `stepDuration(round)`.  The source reads the recent accuracy and
the preset step multiplier from ambient state; they become the parameters
`acc` and `presetMul` here. -/
def stepDuration (round : Nat) (acc presetMul : ℚ) : ℚ :=
  let base : ℚ := 720
  let minDur : ℚ := 200
  let roundFactor : ℚ := (round : ℚ) * 45
  let accBonus : ℚ := max 0 (acc - 3/5) * 380
  max minDur ((base - roundFactor - accBonus) * presetMul)

/-- The three `stepMul` values of `PRESETS` (short 0.85, medium 1.00,
long 1.15). -/
def presetStepMuls : List ℚ := [17/20, 1, 23/20]

/-- One persisted leaderboard record (the object literal pushed in
`addScore`). -/
structure ScoreEntry where
  name : String
  round : Nat
  acc : ℚ
  strict : Bool
  time : Nat
deriving DecidableEq, Repr

/-- The sort comparator in `addScore`,
`(a,b) => b.round - a.round || b.acc - a.acc || b.time - a.time`, expressed
as the induced before-or-tied relation: `scoreLE a b` holds exactly when the
comparator value on `(a, b)` is at most zero, i.e. a stable sort may keep
`a` before `b`. -/
def scoreLE (a b : ScoreEntry) : Bool :=
  if a.round ≠ b.round then decide (b.round < a.round)
  else if a.acc ≠ b.acc then decide (b.acc < a.acc)
  else decide (b.time ≤ a.time)

/-- Source `saveLeaderboard(list)`: persists at most 200 entries. -/
def saveLeaderboard (list : List ScoreEntry) : List ScoreEntry :=
  list.take 200

/-- Source `addScore(name, round, acc, strict, timeOverride)`: no-op on an
empty name, otherwise append the new entry, stable-sort by the comparator
and persist.  JavaScript `Array.prototype.sort` is required to be stable,
so it is modelled by `List.mergeSort`. -/
def addScore (name : String) (round : Nat) (acc : ℚ) (strict : Bool) (t : Nat)
    (list : List ScoreEntry) : List ScoreEntry :=
  if name = "" then list
  else saveLeaderboard
    (List.mergeSort (list ++ [ScoreEntry.mk name round acc strict t]) scoreLE)

/-- Source `enablePads(on)`: set `accepting` and, when enabling, record the
enable timestamp used as the reaction-time baseline. -/
def enablePads (enable : Bool) (now : Nat) (st : GameState) : GameState :=
  let st1 := { st with accepting := enable }
  if enable then { st1 with padEnableTs := now } else st1

/-- Source `showSequence()`: disable pads and play the sequence back.  The
in-loop abort check `if (state.mode!=='playing') return` fires only when the
loop body runs at least once, i.e. when the sequence is nonempty; in this
pure model the mode cannot change mid-loop, so one check captures it.  On
completion the pads are re-enabled (recording the enable timestamp). -/
def showSequence (now : Nat) (st : GameState) : GameState :=
  let st1 := enablePads false now { st with showing := true }
  if st1.sequence ≠ [] ∧ st1.mode ≠ .playing then
    { st1 with showing := false }
  else
    enablePads true now { st1 with showing := false }

/-- The final-accuracy expression in `finalizeRun`:
`state.runInputs ? (state.runCorrect / state.runInputs) : 0`. -/
def finalAccuracy (st : GameState) : ℚ :=
  if st.runInputs ≠ 0 then (st.runCorrect : ℚ) / (st.runInputs : ℚ) else 0

/-- Source `finalizeRun()`: add a score only when at least one round was
completed, then transition to gameover and clear the per-run sequence and
round/input state (run totals and `completedRounds` are left in place). -/
def finalizeRun (name : String) (strict : Bool) (t : Nat)
    (st : GameState) (lb : List ScoreEntry) : GameState × List ScoreEntry :=
  let finalRound := st.completedRounds
  let lb1 := if 0 < finalRound
    then addScore name finalRound (finalAccuracy st) strict t lb
    else lb
  let st1 :=
    { st with
      mode := .gameover
      accepting := false
      sequence := []
      inputIndex := 0
      round := 0
      showing := false }
  (st1, lb1)

/-- Source `nextRound()`: guard on playing, reset the input cursor, bump the
round, append one random signal (`sig`), and play the sequence back. -/
def nextRound (sig : Nat) (now : Nat) (st : GameState) : GameState :=
  if st.mode ≠ .playing then st
  else
    showSequence now
      { st with
        inputIndex := 0
        round := st.round + 1
        sequence := st.sequence ++ [sig] }

/-- The idle branch of `onMainButton()`: enter playing, clear all per-run
state, then run the first round. -/
def startRun (sig : Nat) (now : Nat) (st : GameState) : GameState :=
  nextRound sig now
    { st with
      mode := .playing
      sequence := []
      inputIndex := 0
      round := 0
      completedRounds := 0
      recent := []
      runInputs := 0
      runCorrect := 0
      rts := [] }

/-- The playing branch of `onMainButton()` up to the pause before
`finalizeRun`: enter gameending and disable the pads. -/
def requestEndOp (now : Nat) (st : GameState) : GameState :=
  enablePads false now { st with mode := .gameending }

/-- Source `resetToIdleUI()`: back to a clean idle state. -/
def resetToIdleUI (st : GameState) : GameState :=
  { st with
    mode := .idle
    sequence := []
    accepting := false
    inputIndex := 0
    round := 0
    showing := false
    recent := []
    runInputs := 0
    runCorrect := 0
    completedRounds := 0
    rts := [] }

/-- The reaction-time capture at the top of `handlePadPress`: on the first
input of a turn (and once pads have ever been enabled, `state.padEnableTs`
truthy) push `now − padEnableTs` as a reaction sample. -/
def maybeRecordReaction (now : Nat) (st : GameState) : GameState :=
  if st.inputIndex = 0 ∧ st.padEnableTs ≠ 0
  then pushReaction (now - st.padEnableTs) st
  else st

/-- The validation test of `handlePadPress`: the pressed `index` equals
`state.sequence[state.inputIndex]`.  In JavaScript an out-of-range read
gives `undefined`, and `index !== undefined` always holds, so an
out-of-range cursor counts as a mismatch. -/
def padMatches (index : Nat) (st : GameState) : Bool :=
  match st.sequence[st.inputIndex]? with
  | some expected => index == expected
  | none => false

/-- Source `handlePadPress(index)`.  Parameters beyond the pad index:
`now` for `performance.now()`, `sig` for the random signal a possible next
round appends, `name`/`strict` for the DOM reads `getPlayerName()` and
`strictToggle.checked`, and `t` for `Date.now()` in `finalizeRun`. -/
def handlePadPress (index now sig : Nat) (name : String) (strict : Bool)
    (t : Nat) (st : GameState) (lb : List ScoreEntry) :
    GameState × List ScoreEntry :=
  if st.mode ≠ .playing ∨ st.accepting = false then (st, lb)
  else
    let st1 := maybeRecordReaction now st
    if padMatches index st1 then
      let st2 : GameState :=
        { recordResult true st1 with inputIndex := st1.inputIndex + 1 }
      if st2.inputIndex = st2.sequence.length then
        let st3 := enablePads false now
          { st2 with completedRounds := max st2.completedRounds st2.round }
        (nextRound sig now st3, lb)
      else (st2, lb)
    else
      let st2 := enablePads false now (recordResult false st1)
      if strict then finalizeRun name strict t st2 lb
      else (showSequence now { st2 with inputIndex := 0 }, lb)

/-- The engine state together with the persisted leaderboard. -/
structure World where
  game : GameState
  lb : List ScoreEntry
deriving DecidableEq, Repr

/-- One externally triggered engine operation: start, a round advance, a pad
press, an end request, the finalize that follows gameending, or the
gameover-to-idle reset. -/
inductive Step : World → World → Prop
| start (w : World) (name : String) (sig now : Nat) :
    name ≠ "" → w.game.mode = .idle →
    Step w ⟨startRun sig now w.game, w.lb⟩
| press (w : World) (index now sig t : Nat) (name : String) (strict : Bool) :
    Step w ⟨(handlePadPress index now sig name strict t w.game w.lb).1,
            (handlePadPress index now sig name strict t w.game w.lb).2⟩
| advance (w : World) (sig now : Nat) :
    Step w ⟨nextRound sig now w.game, w.lb⟩
| requestEnd (w : World) (now : Nat) :
    w.game.mode = .playing →
    Step w ⟨requestEndOp now w.game, w.lb⟩
| finalize (w : World) (name : String) (strict : Bool) (t : Nat) :
    w.game.mode = .gameending →
    Step w ⟨(finalizeRun name strict t w.game w.lb).1,
            (finalizeRun name strict t w.game w.lb).2⟩
| reset (w : World) :
    w.game.mode = .gameover →
    Step w ⟨resetToIdleUI w.game, w.lb⟩

/-- The state right after the init block at the bottom of src/main.js
(`enablePads(false); resetToIdleUI();`), with an empty persisted list. -/
def initWorld : World := ⟨{}, []⟩

/-- Engine states reachable from startup through the operations. -/
def Reachable (w : World) : Prop := Relation.ReflTransGen Step initWorld w

/-- Numeric value of a correctness bit as pushed by `recordResult`. -/
def bitOf (b : Bool) : Nat := if b then 1 else 0

/-- Folding a list of results through `recordResult`, oldest first. -/
def runResults (bs : List Bool) (st : GameState) : GameState :=
  bs.foldl (fun s b => recordResult b s) st

/-- The state-shape invariant of the engine: the input cursor never passes
the end of the sequence; outside gameover the best completed round never
exceeds the current round; and while playing the sequence holds exactly one
signal per round started. -/
def Inv (st : GameState) : Prop :=
  st.inputIndex ≤ st.sequence.length
  ∧ (st.mode = .gameover ∨ st.completedRounds ≤ st.round)
  ∧ (st.mode = .playing → st.sequence.length = st.round)

/-- Trace world: a run started with name "a", first signal 2, at time 5. -/
def c1w1 : World := ⟨startRun 2 5 initWorld.game, initWorld.lb⟩

/-- Trace world: the correct pad 2 pressed at time 9, completing round 1 and
advancing into round 2 (next signal 1). -/
def c1w2 : World :=
  ⟨(handlePadPress 2 9 1 "a" false 0 c1w1.game c1w1.lb).1,
   (handlePadPress 2 9 1 "a" false 0 c1w1.game c1w1.lb).2⟩

/-- Trace world: the player requests a graceful end at time 10. -/
def c1w3 : World := ⟨requestEndOp 10 c1w2.game, c1w2.lb⟩

/-- Trace world: the pending finalize runs at time 11. -/
def c1w4 : World :=
  ⟨(finalizeRun "a" false 11 c1w3.game c1w3.lb).1,
   (finalizeRun "a" false 11 c1w3.game c1w3.lb).2⟩

/-- Trace world: a run started with name "a", first signal 2, at time 5
(base of the reaction-time trace). -/
def c8w1 : World := ⟨startRun 2 5 initWorld.game, initWorld.lb⟩

/-- Trace world: wrong pad 0 pressed at time 100 in non-strict mode; a
reaction sample is recorded and round 1 replays. -/
def c8w2 : World :=
  ⟨(handlePadPress 0 100 1 "a" false 0 c8w1.game c8w1.lb).1,
   (handlePadPress 0 100 1 "a" false 0 c8w1.game c8w1.lb).2⟩

/-- Trace world: wrong pad 0 pressed again at time 300, still in round 1; a
second reaction sample is recorded. -/
def c8w3 : World :=
  ⟨(handlePadPress 0 300 1 "a" false 0 c8w2.game c8w2.lb).1,
   (handlePadPress 0 300 1 "a" false 0 c8w2.game c8w2.lb).2⟩

/-- A game state as it stands when `finalizeRun` runs in the spec's strict
scenario: four completed rounds, twelve inputs of which ten were correct. -/
def strictScenarioState : GameState :=
  { mode := .playing
    sequence := [1, 0, 3, 2, 1]
    accepting := false
    inputIndex := 0
    round := 5
    recent := [1, 1, 1, 1, 1, 1, 1, 1, 1, 1, 0, 0]
    runInputs := 12
    runCorrect := 10
    completedRounds := 4
    rts := [400]
    padEnableTs := 90 }

lemma pushReaction_fields (ms : Nat) (st : GameState) :
    (pushReaction ms st).mode = st.mode
  ∧ (pushReaction ms st).sequence = st.sequence
  ∧ (pushReaction ms st).accepting = st.accepting
  ∧ (pushReaction ms st).inputIndex = st.inputIndex
  ∧ (pushReaction ms st).round = st.round
  ∧ (pushReaction ms st).recent = st.recent
  ∧ (pushReaction ms st).runInputs = st.runInputs
  ∧ (pushReaction ms st).runCorrect = st.runCorrect
  ∧ (pushReaction ms st).completedRounds = st.completedRounds
  ∧ (pushReaction ms st).padEnableTs = st.padEnableTs :=
  ⟨rfl, rfl, rfl, rfl, rfl, rfl, rfl, rfl, rfl, rfl⟩

lemma recordResult_fields (b : Bool) (st : GameState) :
    (recordResult b st).mode = st.mode
  ∧ (recordResult b st).sequence = st.sequence
  ∧ (recordResult b st).accepting = st.accepting
  ∧ (recordResult b st).inputIndex = st.inputIndex
  ∧ (recordResult b st).round = st.round
  ∧ (recordResult b st).completedRounds = st.completedRounds
  ∧ (recordResult b st).rts = st.rts
  ∧ (recordResult b st).padEnableTs = st.padEnableTs
  ∧ (recordResult b st).runInputs = st.runInputs + 1 :=
  ⟨rfl, rfl, rfl, rfl, rfl, rfl, rfl, rfl, rfl⟩

lemma enablePads_fields (enable : Bool) (now : Nat) (st : GameState) :
    (enablePads enable now st).mode = st.mode
  ∧ (enablePads enable now st).sequence = st.sequence
  ∧ (enablePads enable now st).accepting = enable
  ∧ (enablePads enable now st).inputIndex = st.inputIndex
  ∧ (enablePads enable now st).round = st.round
  ∧ (enablePads enable now st).recent = st.recent
  ∧ (enablePads enable now st).runInputs = st.runInputs
  ∧ (enablePads enable now st).runCorrect = st.runCorrect
  ∧ (enablePads enable now st).completedRounds = st.completedRounds
  ∧ (enablePads enable now st).rts = st.rts := by
  unfold enablePads
  split <;> exact ⟨rfl, rfl, rfl, rfl, rfl, rfl, rfl, rfl, rfl, rfl⟩

lemma showSequence_fields (now : Nat) (st : GameState) :
    (showSequence now st).mode = st.mode
  ∧ (showSequence now st).sequence = st.sequence
  ∧ (showSequence now st).inputIndex = st.inputIndex
  ∧ (showSequence now st).round = st.round
  ∧ (showSequence now st).recent = st.recent
  ∧ (showSequence now st).runInputs = st.runInputs
  ∧ (showSequence now st).runCorrect = st.runCorrect
  ∧ (showSequence now st).completedRounds = st.completedRounds
  ∧ (showSequence now st).rts = st.rts := by
  by_cases h : ¬st.sequence = [] ∧ ¬st.mode = Mode.playing <;>
    simp [showSequence, enablePads, h]

@[simp] lemma pushReaction_mode (ms : Nat) (st : GameState) :
    (pushReaction ms st).mode = st.mode := rfl

@[simp] lemma pushReaction_sequence (ms : Nat) (st : GameState) :
    (pushReaction ms st).sequence = st.sequence := rfl

@[simp] lemma pushReaction_accepting (ms : Nat) (st : GameState) :
    (pushReaction ms st).accepting = st.accepting := rfl

@[simp] lemma pushReaction_inputIndex (ms : Nat) (st : GameState) :
    (pushReaction ms st).inputIndex = st.inputIndex := rfl

@[simp] lemma pushReaction_round (ms : Nat) (st : GameState) :
    (pushReaction ms st).round = st.round := rfl

@[simp] lemma pushReaction_recent (ms : Nat) (st : GameState) :
    (pushReaction ms st).recent = st.recent := rfl

@[simp] lemma pushReaction_runInputs (ms : Nat) (st : GameState) :
    (pushReaction ms st).runInputs = st.runInputs := rfl

@[simp] lemma pushReaction_runCorrect (ms : Nat) (st : GameState) :
    (pushReaction ms st).runCorrect = st.runCorrect := rfl

@[simp] lemma pushReaction_completedRounds (ms : Nat) (st : GameState) :
    (pushReaction ms st).completedRounds = st.completedRounds := rfl

@[simp] lemma pushReaction_padEnableTs (ms : Nat) (st : GameState) :
    (pushReaction ms st).padEnableTs = st.padEnableTs := rfl

@[simp] lemma recordResult_mode (b : Bool) (st : GameState) :
    (recordResult b st).mode = st.mode := rfl

@[simp] lemma recordResult_sequence (b : Bool) (st : GameState) :
    (recordResult b st).sequence = st.sequence := rfl

@[simp] lemma recordResult_accepting (b : Bool) (st : GameState) :
    (recordResult b st).accepting = st.accepting := rfl

@[simp] lemma recordResult_inputIndex (b : Bool) (st : GameState) :
    (recordResult b st).inputIndex = st.inputIndex := rfl

@[simp] lemma recordResult_round (b : Bool) (st : GameState) :
    (recordResult b st).round = st.round := rfl

@[simp] lemma recordResult_completedRounds (b : Bool) (st : GameState) :
    (recordResult b st).completedRounds = st.completedRounds := rfl

@[simp] lemma recordResult_rts (b : Bool) (st : GameState) :
    (recordResult b st).rts = st.rts := rfl

@[simp] lemma recordResult_padEnableTs (b : Bool) (st : GameState) :
    (recordResult b st).padEnableTs = st.padEnableTs := rfl

@[simp] lemma recordResult_runInputs (b : Bool) (st : GameState) :
    (recordResult b st).runInputs = st.runInputs + 1 := rfl

@[simp] lemma recordResult_runCorrect_true (st : GameState) :
    (recordResult true st).runCorrect = st.runCorrect + 1 := rfl

@[simp] lemma recordResult_runCorrect_false (st : GameState) :
    (recordResult false st).runCorrect = st.runCorrect := rfl

@[simp] lemma enablePads_mode (enable : Bool) (now : Nat) (st : GameState) :
    (enablePads enable now st).mode = st.mode := by
  unfold enablePads; split <;> rfl

@[simp] lemma enablePads_sequence (enable : Bool) (now : Nat)
    (st : GameState) : (enablePads enable now st).sequence = st.sequence := by
  unfold enablePads; split <;> rfl

@[simp] lemma enablePads_accepting (enable : Bool) (now : Nat)
    (st : GameState) : (enablePads enable now st).accepting = enable := by
  unfold enablePads; split <;> rfl

@[simp] lemma enablePads_inputIndex (enable : Bool) (now : Nat)
    (st : GameState) :
    (enablePads enable now st).inputIndex = st.inputIndex := by
  unfold enablePads; split <;> rfl

@[simp] lemma enablePads_round (enable : Bool) (now : Nat) (st : GameState) :
    (enablePads enable now st).round = st.round := by
  unfold enablePads; split <;> rfl

@[simp] lemma enablePads_recent (enable : Bool) (now : Nat)
    (st : GameState) : (enablePads enable now st).recent = st.recent := by
  unfold enablePads; split <;> rfl

@[simp] lemma enablePads_runInputs (enable : Bool) (now : Nat)
    (st : GameState) :
    (enablePads enable now st).runInputs = st.runInputs := by
  unfold enablePads; split <;> rfl

@[simp] lemma enablePads_runCorrect (enable : Bool) (now : Nat)
    (st : GameState) :
    (enablePads enable now st).runCorrect = st.runCorrect := by
  unfold enablePads; split <;> rfl

@[simp] lemma enablePads_completedRounds (enable : Bool) (now : Nat)
    (st : GameState) :
    (enablePads enable now st).completedRounds = st.completedRounds := by
  unfold enablePads; split <;> rfl

@[simp] lemma enablePads_rts (enable : Bool) (now : Nat) (st : GameState) :
    (enablePads enable now st).rts = st.rts := by
  unfold enablePads; split <;> rfl

@[simp] lemma showSequence_mode (now : Nat) (st : GameState) :
    (showSequence now st).mode = st.mode := (showSequence_fields now st).1

@[simp] lemma showSequence_sequence (now : Nat) (st : GameState) :
    (showSequence now st).sequence = st.sequence :=
  (showSequence_fields now st).2.1

@[simp] lemma showSequence_inputIndex (now : Nat) (st : GameState) :
    (showSequence now st).inputIndex = st.inputIndex :=
  (showSequence_fields now st).2.2.1

@[simp] lemma showSequence_round (now : Nat) (st : GameState) :
    (showSequence now st).round = st.round :=
  (showSequence_fields now st).2.2.2.1

@[simp] lemma showSequence_recent (now : Nat) (st : GameState) :
    (showSequence now st).recent = st.recent :=
  (showSequence_fields now st).2.2.2.2.1

@[simp] lemma showSequence_runInputs (now : Nat) (st : GameState) :
    (showSequence now st).runInputs = st.runInputs :=
  (showSequence_fields now st).2.2.2.2.2.1

@[simp] lemma showSequence_runCorrect (now : Nat) (st : GameState) :
    (showSequence now st).runCorrect = st.runCorrect :=
  (showSequence_fields now st).2.2.2.2.2.2.1

@[simp] lemma showSequence_completedRounds (now : Nat) (st : GameState) :
    (showSequence now st).completedRounds = st.completedRounds :=
  (showSequence_fields now st).2.2.2.2.2.2.2.1

@[simp] lemma showSequence_rts (now : Nat) (st : GameState) :
    (showSequence now st).rts = st.rts :=
  (showSequence_fields now st).2.2.2.2.2.2.2.2

@[simp] lemma maybeRecordReaction_mode (now : Nat) (st : GameState) :
    (maybeRecordReaction now st).mode = st.mode := by
  unfold maybeRecordReaction; split <;> rfl

@[simp] lemma maybeRecordReaction_sequence (now : Nat) (st : GameState) :
    (maybeRecordReaction now st).sequence = st.sequence := by
  unfold maybeRecordReaction; split <;> rfl

@[simp] lemma maybeRecordReaction_accepting (now : Nat) (st : GameState) :
    (maybeRecordReaction now st).accepting = st.accepting := by
  unfold maybeRecordReaction; split <;> rfl

@[simp] lemma maybeRecordReaction_inputIndex (now : Nat) (st : GameState) :
    (maybeRecordReaction now st).inputIndex = st.inputIndex := by
  unfold maybeRecordReaction; split <;> rfl

@[simp] lemma maybeRecordReaction_round (now : Nat) (st : GameState) :
    (maybeRecordReaction now st).round = st.round := by
  unfold maybeRecordReaction; split <;> rfl

@[simp] lemma maybeRecordReaction_recent (now : Nat) (st : GameState) :
    (maybeRecordReaction now st).recent = st.recent := by
  unfold maybeRecordReaction; split <;> rfl

@[simp] lemma maybeRecordReaction_runInputs (now : Nat) (st : GameState) :
    (maybeRecordReaction now st).runInputs = st.runInputs := by
  unfold maybeRecordReaction; split <;> rfl

@[simp] lemma maybeRecordReaction_runCorrect (now : Nat) (st : GameState) :
    (maybeRecordReaction now st).runCorrect = st.runCorrect := by
  unfold maybeRecordReaction; split <;> rfl

@[simp] lemma maybeRecordReaction_completedRounds (now : Nat)
    (st : GameState) :
    (maybeRecordReaction now st).completedRounds = st.completedRounds := by
  unfold maybeRecordReaction; split <;> rfl

@[simp] lemma maybeRecordReaction_padEnableTs (now : Nat) (st : GameState) :
    (maybeRecordReaction now st).padEnableTs = st.padEnableTs := by
  unfold maybeRecordReaction; split <;> rfl

@[simp] lemma padMatches_maybeRecordReaction (index now : Nat)
    (st : GameState) :
    padMatches index (maybeRecordReaction now st) = padMatches index st := by
  unfold padMatches
  rw [maybeRecordReaction_sequence, maybeRecordReaction_inputIndex]

/-- C2: a pad press arriving while the engine is not in `playing` mode or
while input acceptance is disabled leaves the engine state and the
leaderboard exactly unchanged; it is silently ignored.  Late or duplicate
events after a round's input is complete fall under this guard, since the
engine disables acceptance (`enablePads(false)`) the moment the round's last
input is matched. -/
theorem press_ignored_when_not_accepting (index now sig t : Nat)
    (name : String) (strict : Bool) (st : GameState) (lb : List ScoreEntry)
    (h : st.mode ≠ .playing ∨ st.accepting = false) :
    handlePadPress index now sig name strict t st lb = (st, lb) := by
  unfold handlePadPress
  rw [if_pos h]

/-- Witness for C2 at a concrete gameover-mode state. -/
theorem press_ignored_when_not_accepting_witness :
    handlePadPress 2 7 1 "zoe" true 3
      { mode := .gameover, sequence := [2], accepting := false } [] =
      ({ mode := .gameover, sequence := [2], accepting := false }, []) :=
  press_ignored_when_not_accepting 2 7 1 3 "zoe" true
    { mode := .gameover, sequence := [2], accepting := false } []
    (Or.inl (by decide))

/-- C3: `stepDuration` computes
max(200, (720 − 45·round − max(0, acc − 0.60)·380) · presetMul); it is
always at least 200 and, for a preset multiplier drawn from the three tone
presets, monotonically non-increasing in the round and in the recent
accuracy above the 0.60 threshold. -/
theorem stepDuration_spec (r r1 r2 : Nat) (a a1 a2 m : ℚ)
    (hm : m ∈ presetStepMuls) (hr : r1 ≤ r2) (ha0 : 3/5 < a1) (ha : a1 ≤ a2) :
    stepDuration r a m
        = max 200 ((720 - (r : ℚ) * 45 - max 0 (a - 3/5) * 380) * m)
    ∧ 200 ≤ stepDuration r a m
    ∧ stepDuration r2 a m ≤ stepDuration r1 a m
    ∧ stepDuration r a2 m ≤ stepDuration r a1 m := by
  have hEq : ∀ (rr : Nat) (aa : ℚ), stepDuration rr aa m
      = max 200 ((720 - (rr : ℚ) * 45 - max 0 (aa - 3/5) * 380) * m) :=
    fun _ _ => rfl
  have hm0 : (0 : ℚ) ≤ m := by
    simp only [presetStepMuls, List.mem_cons, List.not_mem_nil, or_false] at hm
    rcases hm with h | h | h <;> rw [h] <;> norm_num
  refine ⟨hEq r a, le_max_left _ _, ?_, ?_⟩
  · rw [hEq, hEq]
    refine max_le_max le_rfl (mul_le_mul_of_nonneg_right ?_ hm0)
    have hc : (r1 : ℚ) ≤ (r2 : ℚ) := by exact_mod_cast hr
    linarith
  · rw [hEq, hEq]
    refine max_le_max le_rfl (mul_le_mul_of_nonneg_right ?_ hm0)
    have hb : max 0 (a1 - 3/5) ≤ max 0 (a2 - 3/5) :=
      max_le_max le_rfl (by linarith)
    linarith

/-- Witness for C3 at round 0 versus 1 and accuracy 0.7 versus 0.8 with the
medium preset. -/
theorem stepDuration_spec_witness :
    stepDuration 0 (7/10) 1
        = max 200 ((720 - ((0 : Nat) : ℚ) * 45 - max 0 ((7:ℚ)/10 - 3/5) * 380) * 1)
    ∧ 200 ≤ stepDuration 0 (7/10) 1
    ∧ stepDuration 1 (7/10) 1 ≤ stepDuration 0 (7/10) 1
    ∧ stepDuration 0 (8/10) 1 ≤ stepDuration 0 (7/10) 1 :=
  stepDuration_spec 0 0 1 (7/10) (7/10) (8/10) 1
    (by simp [presetStepMuls]) (by norm_num) (by norm_num) (by norm_num)

/-- C6: when a run finalizes with zero completed rounds, the persisted score
list is returned unchanged (no entry is created, whatever the strict flag),
and the engine still transitions to gameover. -/
theorem finalize_zero_rounds_no_entry (name : String) (strict : Bool)
    (t : Nat) (st : GameState) (lb : List ScoreEntry)
    (h : st.completedRounds = 0) :
    (finalizeRun name strict t st lb).2 = lb
    ∧ (finalizeRun name strict t st lb).1.mode = .gameover := by
  unfold finalizeRun
  rw [h]
  exact ⟨rfl, rfl⟩

/-- Witness for C6 at a concrete zero-round state, strict on and off. -/
theorem finalize_zero_rounds_no_entry_witness :
    ((finalizeRun "zoe" true 7 { runInputs := 1 } []).2 = []
      ∧ (finalizeRun "zoe" true 7 { runInputs := 1 } []).1.mode = .gameover)
    ∧ ((finalizeRun "zoe" false 7 { runInputs := 1 } []).2 = []
      ∧ (finalizeRun "zoe" false 7 { runInputs := 1 } []).1.mode = .gameover) :=
  ⟨finalize_zero_rounds_no_entry "zoe" true 7 { runInputs := 1 } [] rfl,
   finalize_zero_rounds_no_entry "zoe" false 7 { runInputs := 1 } [] rfl⟩

lemma drop_append_of_le {α : Type} (n : Nat) (l m : List α)
    (h : n ≤ l.length) : (l ++ m).drop n = l.drop n ++ m := by
  induction l generalizing n with
  | nil =>
    simp only [List.length_nil, Nat.le_zero] at h
    simp [h]
  | cons a rest ih =>
    cases n with
    | zero => simp
    | succ k =>
      simp only [List.cons_append, List.drop_succ_cons]
      exact ih k (by simpa using h)

lemma recordResult_recent (b : Bool) (st : GameState) :
    (recordResult b st).recent =
      if recentWindow < st.recent.length + 1
      then (st.recent ++ [bitOf b]).tail
      else st.recent ++ [bitOf b] := by
  simp [recordResult, bitOf]

lemma recordResult_recent_drop (b : Bool) (st : GameState)
    (h : st.recent.length ≤ recentWindow) :
    (recordResult b st).recent
      = (st.recent ++ [bitOf b]).drop (st.recent.length + 1 - recentWindow) := by
  rw [recordResult_recent]
  unfold recentWindow at *
  split
  · next hlt =>
    have h1 : st.recent.length + 1 - 20 = 1 := by omega
    rw [h1, List.drop_one]
  · next hge =>
    have h0 : st.recent.length + 1 - 20 = 0 := by omega
    rw [h0, List.drop_zero]

lemma runResults_cons (b : Bool) (bs : List Bool) (st : GameState) :
    runResults (b :: bs) st = runResults bs (recordResult b st) := rfl

lemma runResults_recent (bs : List Bool) (st : GameState)
    (h : st.recent.length ≤ recentWindow) :
    (runResults bs st).recent
      = (st.recent ++ bs.map bitOf).drop
          (st.recent.length + bs.length - recentWindow) := by
  induction bs generalizing st with
  | nil =>
    have h0 : st.recent.length - recentWindow = 0 := by
      unfold recentWindow at *; omega
    simp [runResults, h0]
  | cons b rest ih =>
    rw [runResults_cons]
    have hd := recordResult_recent_drop b st h
    have hlen1 : (recordResult b st).recent.length ≤ recentWindow := by
      rw [hd]
      unfold recentWindow at *
      simp only [List.length_drop, List.length_append, List.length_cons,
        List.length_nil]
      omega
    rw [ih _ hlen1, hd]
    have hle : st.recent.length + 1 - recentWindow
        ≤ (st.recent ++ [bitOf b]).length := by
      unfold recentWindow at *
      simp only [List.length_append, List.length_cons, List.length_nil]
      omega
    rw [← drop_append_of_le _ _ _ hle, List.drop_drop]
    have harith : st.recent.length + 1 - recentWindow
          + (((st.recent ++ [bitOf b]).drop
              (st.recent.length + 1 - recentWindow)).length
            + rest.length - recentWindow)
        = st.recent.length + (b :: rest).length - recentWindow := by
      unfold recentWindow at *
      simp only [List.length_drop, List.length_append, List.length_cons,
        List.length_nil]
      omega
    rw [harith, List.append_assoc, List.singleton_append, List.map_cons]

lemma sum_map_bitOf (bs : List Bool) : (bs.map bitOf).sum = bs.countP id := by
  induction bs with
  | nil => rfl
  | cons b rest ih =>
    cases b <;> simp [bitOf, ih, List.countP_cons] <;> omega

/-- C9: the recent-accuracy reading is exactly 0.85 on an empty window, and
after recording k results of which c were correct (k at most the window
size, starting from an empty window) it is exactly c / k. -/
theorem recentAccuracy_spec (bs : List Bool) (st : GameState)
    (hempty : st.recent = []) (hlen : bs.length ≤ recentWindow)
    (hpos : 0 < bs.length) :
    getRecentAccuracy st = 17/20
    ∧ getRecentAccuracy (runResults bs st)
        = (bs.countP id : ℚ) / (bs.length : ℚ) := by
  constructor
  · simp [getRecentAccuracy, hempty]
  · have hrec : (runResults bs st).recent = bs.map bitOf := by
      rw [runResults_recent bs st (by simp [hempty]), hempty]
      have h0 : bs.length - recentWindow = 0 := by
        unfold recentWindow at *; omega
      simp [h0]
    have hne : ¬((runResults bs st).recent.length = 0) := by
      rw [hrec, List.length_map]; omega
    rw [getRecentAccuracy, if_neg hne, hrec, sum_map_bitOf]
    simp

/-- Witness for C9: three results, two of them correct, give accuracy 2/3. -/
theorem recentAccuracy_spec_witness :
    getRecentAccuracy { recent := [] } = 17/20
    ∧ getRecentAccuracy (runResults [true, false, true] { recent := [] })
        = (([true, false, true].countP id : Nat) : ℚ)
          / (([true, false, true].length : Nat) : ℚ) :=
  recentAccuracy_spec [true, false, true] { recent := [] } rfl
    (by decide) (by decide)

/-- C10: through any sequence of recorded results the accuracy window keeps
at most `recentWindow` (20) bits, the surviving bits are exactly the most
recent 20 (strict FIFO: everything older is dropped, oldest first), and a
record into a full window evicts exactly the head (the oldest bit). -/
theorem accuracyWindow_bounded_fifo (bs : List Bool) (b : Bool)
    (st st2 : GameState)
    (hlen : st.recent.length ≤ recentWindow)
    (hfull : st2.recent.length = recentWindow) :
    (runResults bs st).recent.length ≤ recentWindow
    ∧ (runResults bs st).recent
        = (st.recent ++ bs.map bitOf).drop
            (st.recent.length + bs.length - recentWindow)
    ∧ (recordResult b st2).recent = st2.recent.tail ++ [bitOf b] := by
  refine ⟨?_, runResults_recent bs st hlen, ?_⟩
  · rw [runResults_recent bs st hlen]
    unfold recentWindow at *
    simp only [List.length_drop, List.length_append, List.length_map]
    omega
  · rw [recordResult_recent,
      if_pos (by unfold recentWindow at *; omega)]
    have hne : st2.recent ≠ [] := by
      intro hh
      rw [hh] at hfull
      simp [recentWindow] at hfull
    rw [List.tail_append_of_ne_nil hne]

/-- Witness for C10 at a window of twenty ones receiving a miss bit, and a
short run from the empty window. -/
theorem accuracyWindow_bounded_fifo_witness :
    (runResults [true] { recent := [] }).recent.length ≤ recentWindow
    ∧ (runResults [true] { recent := [] }).recent
        = (({ recent := [] } : GameState).recent ++ [true].map bitOf).drop
            (({ recent := [] } : GameState).recent.length + [true].length
              - recentWindow)
    ∧ (recordResult false { recent := List.replicate 20 1 }).recent
        = ({ recent := List.replicate 20 1 } : GameState).recent.tail
          ++ [bitOf false] :=
  accuracyWindow_bounded_fifo [true] false { recent := [] }
    { recent := List.replicate 20 1 } (by decide) (by decide)

lemma scoreLE_iff (a b : ScoreEntry) :
    scoreLE a b = true
    ↔ (b.round < a.round
        ∨ (a.round = b.round ∧ b.acc < a.acc)
        ∨ (a.round = b.round ∧ a.acc = b.acc ∧ b.time ≤ a.time)) := by
  unfold scoreLE
  split_ifs with h1 h2
  · have h1x : a.round ≠ b.round := h1
    simp only [decide_eq_true_eq]
    constructor
    · exact fun h => Or.inl h
    · rintro (h | ⟨he, _⟩ | ⟨he, _⟩)
      · exact h
      · exact absurd he h1x
      · exact absurd he h1x
  · have he : a.round = b.round := not_ne_iff.mp h1
    simp only [decide_eq_true_eq]
    constructor
    · exact fun h => Or.inr (Or.inl ⟨he, h⟩)
    · rintro (h | ⟨_, h⟩ | ⟨_, hacc, _⟩)
      · exact absurd h (by omega)
      · exact h
      · exact absurd hacc h2
  · have he : a.round = b.round := not_ne_iff.mp h1
    have hacc : a.acc = b.acc := not_ne_iff.mp h2
    simp only [decide_eq_true_eq]
    constructor
    · exact fun h => Or.inr (Or.inr ⟨he, hacc, h⟩)
    · rintro (h | ⟨_, h⟩ | ⟨_, _, h⟩)
      · exact absurd h (by omega)
      · exact absurd h (by rw [hacc]; exact lt_irrefl _)
      · exact h

lemma scoreLE_total (a b : ScoreEntry) :
    scoreLE a b = true ∨ scoreLE b a = true := by
  rw [scoreLE_iff, scoreLE_iff]
  rcases Nat.lt_trichotomy a.round b.round with h | h | h
  · exact Or.inr (Or.inl h)
  · rcases lt_trichotomy a.acc b.acc with h2 | h2 | h2
    · exact Or.inr (Or.inr (Or.inl ⟨h.symm, h2⟩))
    · rcases Nat.le_total b.time a.time with h3 | h3
      · exact Or.inl (Or.inr (Or.inr ⟨h, h2, h3⟩))
      · exact Or.inr (Or.inr (Or.inr ⟨h.symm, h2.symm, h3⟩))
    · exact Or.inl (Or.inr (Or.inl ⟨h, h2⟩))
  · exact Or.inl (Or.inl h)

lemma scoreLE_trans (a b c : ScoreEntry) (hab : scoreLE a b = true)
    (hbc : scoreLE b c = true) : scoreLE a c = true := by
  rw [scoreLE_iff] at hab hbc ⊢
  rcases hab with h | ⟨e, h⟩ | ⟨e, ea, h⟩ <;>
    rcases hbc with h2 | ⟨e2, h2⟩ | ⟨e2, ea2, h2⟩
  · exact Or.inl (by omega)
  · exact Or.inl (by omega)
  · exact Or.inl (by omega)
  · exact Or.inl (by omega)
  · exact Or.inr (Or.inl ⟨by omega, lt_trans h2 h⟩)
  · exact Or.inr (Or.inl ⟨by omega, by rw [← ea2]; exact h⟩)
  · exact Or.inl (by omega)
  · exact Or.inr (Or.inl ⟨by omega, by rw [ea]; exact h2⟩)
  · exact Or.inr (Or.inr ⟨by omega, by rw [ea, ea2], le_trans h2 h⟩)

lemma scoreLE_total_bool (a b : ScoreEntry) :
    (scoreLE a b || scoreLE b a) = true := by
  rcases scoreLE_total a b with h | h <;> simp [h]

/-- C5: after `addScore` inserts a new entry (nonempty name, list not yet at
the 200 cap), the stored list is sorted by the comparator: any entry is
followed only by entries it dominates on round, then accuracy, then
recency, and that relation means exactly round-greater, or round-equal and
accuracy-greater, or round-and-accuracy-equal and time-at-least.  The
relation is total, the stored list is a permutation of the append, and a
pair of entries equal on all three keys keeps its pre-sort relative order
(stable sort). -/
theorem leaderboard_order_spec (name : String) (round : Nat) (acc : ℚ)
    (strict : Bool) (t : Nat) (lb : List ScoreEntry) (A B X Y : ScoreEntry)
    (hname : name ≠ "") (hlen : lb.length < 200)
    (hkey : X.round = Y.round ∧ X.acc = Y.acc ∧ X.time = Y.time)
    (hsub : List.Sublist [X, Y]
      (lb ++ [ScoreEntry.mk name round acc strict t])) :
    (addScore name round acc strict t lb).Pairwise
        (fun p q => scoreLE p q = true)
    ∧ (scoreLE A B = true
        ↔ (B.round < A.round
            ∨ (A.round = B.round ∧ B.acc < A.acc)
            ∨ (A.round = B.round ∧ A.acc = B.acc ∧ B.time ≤ A.time)))
    ∧ (scoreLE A B = true ∨ scoreLE B A = true)
    ∧ List.Perm (addScore name round acc strict t lb)
        (lb ++ [ScoreEntry.mk name round acc strict t])
    ∧ List.Sublist [X, Y] (addScore name round acc strict t lb) := by
  have hadd : addScore name round acc strict t lb
      = (lb ++ [ScoreEntry.mk name round acc strict t]).mergeSort scoreLE := by
    unfold addScore saveLeaderboard
    rw [if_neg hname]
    apply List.take_of_length_le
    rw [List.length_mergeSort, List.length_append]
    simp only [List.length_cons, List.length_nil]
    omega
  refine ⟨?_, scoreLE_iff A B, scoreLE_total A B, ?_, ?_⟩
  · rw [hadd]
    exact List.sorted_mergeSort scoreLE_trans scoreLE_total_bool _
  · rw [hadd]
    exact List.mergeSort_perm _ _
  · rw [hadd]
    have hXY : scoreLE X Y = true := by
      rw [scoreLE_iff]
      exact Or.inr (Or.inr ⟨hkey.1, hkey.2.1, le_of_eq hkey.2.2.symm⟩)
    exact List.pair_sublist_mergeSort scoreLE_trans scoreLE_total_bool hXY hsub

/-- Witness for C5: inserting a second entry that ties the first on all
three keys; the tied pair keeps its append order. -/
theorem leaderboard_order_spec_witness :
    (addScore "P" 3 (1/2) false 50
        [ScoreEntry.mk "A" 3 (1/2) false 50]).Pairwise
        (fun p q => scoreLE p q = true)
    ∧ (scoreLE (ScoreEntry.mk "A" 3 (1/2) false 50)
          (ScoreEntry.mk "P" 3 (1/2) false 50) = true
        ↔ ((ScoreEntry.mk "P" 3 (1/2) false 50).round
              < (ScoreEntry.mk "A" 3 (1/2) false 50).round
            ∨ ((ScoreEntry.mk "A" 3 (1/2) false 50).round
                  = (ScoreEntry.mk "P" 3 (1/2) false 50).round
                ∧ (ScoreEntry.mk "P" 3 (1/2) false 50).acc
                  < (ScoreEntry.mk "A" 3 (1/2) false 50).acc)
            ∨ ((ScoreEntry.mk "A" 3 (1/2) false 50).round
                  = (ScoreEntry.mk "P" 3 (1/2) false 50).round
                ∧ (ScoreEntry.mk "A" 3 (1/2) false 50).acc
                  = (ScoreEntry.mk "P" 3 (1/2) false 50).acc
                ∧ (ScoreEntry.mk "P" 3 (1/2) false 50).time
                  ≤ (ScoreEntry.mk "A" 3 (1/2) false 50).time)))
    ∧ (scoreLE (ScoreEntry.mk "A" 3 (1/2) false 50)
          (ScoreEntry.mk "P" 3 (1/2) false 50) = true
        ∨ scoreLE (ScoreEntry.mk "P" 3 (1/2) false 50)
            (ScoreEntry.mk "A" 3 (1/2) false 50) = true)
    ∧ List.Perm
        (addScore "P" 3 (1/2) false 50 [ScoreEntry.mk "A" 3 (1/2) false 50])
        ([ScoreEntry.mk "A" 3 (1/2) false 50]
          ++ [ScoreEntry.mk "P" 3 (1/2) false 50])
    ∧ List.Sublist
        [ScoreEntry.mk "A" 3 (1/2) false 50, ScoreEntry.mk "P" 3 (1/2) false 50]
        (addScore "P" 3 (1/2) false 50
          [ScoreEntry.mk "A" 3 (1/2) false 50]) :=
  leaderboard_order_spec "P" 3 (1/2) false 50
    [ScoreEntry.mk "A" 3 (1/2) false 50]
    (ScoreEntry.mk "A" 3 (1/2) false 50) (ScoreEntry.mk "P" 3 (1/2) false 50)
    (ScoreEntry.mk "A" 3 (1/2) false 50) (ScoreEntry.mk "P" 3 (1/2) false 50)
    (by simp) (by simp) ⟨rfl, rfl, rfl⟩ (List.Sublist.refl _)

/-- C4: a mismatched press in strict mode runs `finalizeRun` immediately on
the post-mismatch state (the failed result is recorded and pads disabled
first) and lands in gameover with no retry; `finalizeRun` with at least one
completed round inserts exactly the entry whose round is `completedRounds`
and whose accuracy is `finalAccuracy`, which is `runCorrect / runInputs`
when any input was seen and 0 otherwise; at the spec figures
(completedRounds 4, runInputs 12, runCorrect 10) the created entry has
round 4 and accuracy 10/12 = 5/6. -/
theorem strict_mismatch_finalizes (index now sig t : Nat) (name : String)
    (st st2 st4 : GameState) (lb lb2 : List ScoreEntry)
    (hmode : st.mode = .playing) (hacc : st.accepting = true)
    (hmis : padMatches index st = false)
    (h2r : 0 < st2.completedRounds) (h2name : name ≠ "")
    (h2i : st2.runInputs ≠ 0) (h4 : st4.runInputs = 0) :
    handlePadPress index now sig name true t st lb
      = finalizeRun name true t
          (enablePads false now
            (recordResult false (maybeRecordReaction now st))) lb
    ∧ (handlePadPress index now sig name true t st lb).1.mode = .gameover
    ∧ (finalizeRun name true t st2 lb2).2
        = saveLeaderboard
            (List.mergeSort
              (lb2 ++ [ScoreEntry.mk name st2.completedRounds
                (finalAccuracy st2) true t]) scoreLE)
    ∧ finalAccuracy st2 = (st2.runCorrect : ℚ) / (st2.runInputs : ℚ)
    ∧ finalAccuracy st4 = 0
    ∧ (finalizeRun "P" true 99 strictScenarioState []).2
        = [ScoreEntry.mk "P" 4 (5/6) true 99] := by
  have h1 : handlePadPress index now sig name true t st lb
      = finalizeRun name true t
          (enablePads false now
            (recordResult false (maybeRecordReaction now st))) lb := by
    unfold handlePadPress
    rw [if_neg (by simp [hmode, hacc])]
    simp only [padMatches_maybeRecordReaction, hmis, Bool.false_eq_true,
      if_false, if_true]
  refine ⟨h1, by rw [h1]; rfl, ?_, ?_, ?_,
    by norm_num [finalizeRun, strictScenarioState, finalAccuracy, addScore,
      saveLeaderboard]; decide⟩
  · unfold finalizeRun addScore
    simp only [if_pos h2r, if_neg h2name]
  · unfold finalAccuracy
    rw [if_pos h2i]
  · unfold finalAccuracy
    rw [if_neg (by simp [h4])]

/-- Witness for C4 on a concrete strict run: pad 3 pressed against expected
signal 2 in round 1. -/
theorem strict_mismatch_finalizes_witness :
    handlePadPress 3 9 0 "P" true 11
        { mode := .playing, sequence := [2], accepting := true,
          padEnableTs := 5 } []
      = finalizeRun "P" true 11
          (enablePads false 9
            (recordResult false (maybeRecordReaction 9
              { mode := .playing, sequence := [2], accepting := true,
                padEnableTs := 5 }))) []
    ∧ (handlePadPress 3 9 0 "P" true 11
        { mode := .playing, sequence := [2], accepting := true,
          padEnableTs := 5 } []).1.mode = .gameover
    ∧ (finalizeRun "P" true 11 strictScenarioState []).2
        = saveLeaderboard
            (List.mergeSort
              ([] ++ [ScoreEntry.mk "P" strictScenarioState.completedRounds
                (finalAccuracy strictScenarioState) true 11]) scoreLE)
    ∧ finalAccuracy strictScenarioState
        = (strictScenarioState.runCorrect : ℚ)
          / (strictScenarioState.runInputs : ℚ)
    ∧ finalAccuracy ({} : GameState) = 0
    ∧ (finalizeRun "P" true 99 strictScenarioState []).2
        = [ScoreEntry.mk "P" 4 (5/6) true 99] :=
  strict_mismatch_finalizes 3 9 0 11 "P"
    { mode := .playing, sequence := [2], accepting := true, padEnableTs := 5 }
    strictScenarioState {} [] []
    rfl rfl (by decide) (by decide) (by simp) (by decide) rfl

/-- C7: a mismatched press in non-strict mode records a failed result
(one more run input, no new correct input), transiently disables input
acceptance, resets the input cursor to 0 and replays the same sequence via
`showSequence`; the round number, the completed-round count, the sequence
contents and the leaderboard are unchanged and the engine stays in
playing mode. -/
theorem nonstrict_mismatch_replays (index now sig t : Nat) (name : String)
    (st : GameState) (lb : List ScoreEntry)
    (hmode : st.mode = .playing) (hacc : st.accepting = true)
    (hmis : padMatches index st = false) :
    handlePadPress index now sig name false t st lb
      = (showSequence now
          { enablePads false now
              (recordResult false (maybeRecordReaction now st)) with
            inputIndex := 0 }, lb)
    ∧ (enablePads false now
        (recordResult false (maybeRecordReaction now st))).accepting = false
    ∧ (handlePadPress index now sig name false t st lb).1.inputIndex = 0
    ∧ (handlePadPress index now sig name false t st lb).1.round = st.round
    ∧ (handlePadPress index now sig name false t st lb).1.completedRounds
        = st.completedRounds
    ∧ (handlePadPress index now sig name false t st lb).1.sequence
        = st.sequence
    ∧ (handlePadPress index now sig name false t st lb).1.mode = .playing
    ∧ (handlePadPress index now sig name false t st lb).1.runInputs
        = st.runInputs + 1
    ∧ (handlePadPress index now sig name false t st lb).1.runCorrect
        = st.runCorrect
    ∧ (handlePadPress index now sig name false t st lb).2 = lb := by
  have h1 : handlePadPress index now sig name false t st lb
      = (showSequence now
          { enablePads false now
              (recordResult false (maybeRecordReaction now st)) with
            inputIndex := 0 }, lb) := by
    unfold handlePadPress
    rw [if_neg (by simp [hmode, hacc])]
    simp only [padMatches_maybeRecordReaction, hmis, Bool.false_eq_true,
      if_false]
  refine ⟨h1, by simp, ?_, ?_, ?_, ?_, ?_, ?_, ?_, by rw [h1]⟩ <;>
    rw [h1] <;> simp [hmode]

/-- Witness for C7 on a concrete non-strict run: pad 3 pressed against
expected signal 2 in round 1. -/
theorem nonstrict_mismatch_replays_witness :
    handlePadPress 3 9 0 "P" false 11
        { mode := .playing, sequence := [2], accepting := true,
          padEnableTs := 5 } []
      = (showSequence 9
          { enablePads false 9
              (recordResult false (maybeRecordReaction 9
                { mode := .playing, sequence := [2], accepting := true,
                  padEnableTs := 5 })) with
            inputIndex := 0 }, [])
    ∧ (enablePads false 9
        (recordResult false (maybeRecordReaction 9
          { mode := .playing, sequence := [2], accepting := true,
            padEnableTs := 5 }))).accepting = false
    ∧ (handlePadPress 3 9 0 "P" false 11
        { mode := .playing, sequence := [2], accepting := true,
          padEnableTs := 5 } []).1.inputIndex = 0
    ∧ (handlePadPress 3 9 0 "P" false 11
        { mode := .playing, sequence := [2], accepting := true,
          padEnableTs := 5 } []).1.round
        = ({ mode := .playing, sequence := [2], accepting := true,
             padEnableTs := 5 } : GameState).round
    ∧ (handlePadPress 3 9 0 "P" false 11
        { mode := .playing, sequence := [2], accepting := true,
          padEnableTs := 5 } []).1.completedRounds
        = ({ mode := .playing, sequence := [2], accepting := true,
             padEnableTs := 5 } : GameState).completedRounds
    ∧ (handlePadPress 3 9 0 "P" false 11
        { mode := .playing, sequence := [2], accepting := true,
          padEnableTs := 5 } []).1.sequence
        = ({ mode := .playing, sequence := [2], accepting := true,
             padEnableTs := 5 } : GameState).sequence
    ∧ (handlePadPress 3 9 0 "P" false 11
        { mode := .playing, sequence := [2], accepting := true,
          padEnableTs := 5 } []).1.mode = .playing
    ∧ (handlePadPress 3 9 0 "P" false 11
        { mode := .playing, sequence := [2], accepting := true,
          padEnableTs := 5 } []).1.runInputs
        = ({ mode := .playing, sequence := [2], accepting := true,
             padEnableTs := 5 } : GameState).runInputs + 1
    ∧ (handlePadPress 3 9 0 "P" false 11
        { mode := .playing, sequence := [2], accepting := true,
          padEnableTs := 5 } []).1.runCorrect
        = ({ mode := .playing, sequence := [2], accepting := true,
             padEnableTs := 5 } : GameState).runCorrect
    ∧ (handlePadPress 3 9 0 "P" false 11
        { mode := .playing, sequence := [2], accepting := true,
          padEnableTs := 5 } []).2 = [] :=
  nonstrict_mismatch_replays 3 9 0 11 "P"
    { mode := .playing, sequence := [2], accepting := true, padEnableTs := 5 }
    [] rfl rfl (by decide)

lemma handlePadPress_ignored (index now sig t : Nat) (name : String)
    (strict : Bool) (st : GameState) (lb : List ScoreEntry)
    (hg : st.mode ≠ .playing ∨ st.accepting = false) :
    handlePadPress index now sig name strict t st lb = (st, lb) := by
  unfold handlePadPress
  rw [if_pos hg]

lemma handlePadPress_matched (index now sig t : Nat) (name : String)
    (strict : Bool) (st : GameState) (lb : List ScoreEntry)
    (hg : ¬(st.mode ≠ .playing ∨ st.accepting = false))
    (hm : padMatches index st = true) :
    handlePadPress index now sig name strict t st lb
      = if st.inputIndex + 1 = st.sequence.length then
          (nextRound sig now (enablePads false now
            { recordResult true (maybeRecordReaction now st) with
              inputIndex := st.inputIndex + 1
              completedRounds := max st.completedRounds st.round }), lb)
        else
          ({ recordResult true (maybeRecordReaction now st) with
             inputIndex := st.inputIndex + 1 }, lb) := by
  unfold handlePadPress
  rw [if_neg hg]
  simp only [padMatches_maybeRecordReaction, hm, if_true,
    maybeRecordReaction_inputIndex, maybeRecordReaction_sequence,
    maybeRecordReaction_completedRounds, maybeRecordReaction_round,
    recordResult_sequence, recordResult_completedRounds, recordResult_round]

lemma handlePadPress_mismatch (index now sig t : Nat) (name : String)
    (strict : Bool) (st : GameState) (lb : List ScoreEntry)
    (hg : ¬(st.mode ≠ .playing ∨ st.accepting = false))
    (hm : padMatches index st = false) :
    handlePadPress index now sig name strict t st lb
      = if strict then
          finalizeRun name strict t
            (enablePads false now
              (recordResult false (maybeRecordReaction now st))) lb
        else
          (showSequence now
            { enablePads false now
                (recordResult false (maybeRecordReaction now st)) with
              inputIndex := 0 }, lb) := by
  unfold handlePadPress
  rw [if_neg hg]
  simp only [padMatches_maybeRecordReaction, hm, Bool.false_eq_true, if_false]

lemma nextRound_rts (sig now : Nat) (st : GameState) :
    (nextRound sig now st).rts = st.rts := by
  unfold nextRound
  split
  · rfl
  · simp

@[simp] lemma finalizeRun_game_rts (name : String) (strict : Bool) (t : Nat)
    (st : GameState) (lb : List ScoreEntry) :
    (finalizeRun name strict t st lb).1.rts = st.rts := rfl

lemma nextRound_playing (sig now : Nat) (st : GameState)
    (hp : st.mode = .playing) :
    (nextRound sig now st).sequence = st.sequence ++ [sig]
    ∧ (nextRound sig now st).round = st.round + 1
    ∧ (nextRound sig now st).mode = st.mode
    ∧ (nextRound sig now st).inputIndex = 0
    ∧ (nextRound sig now st).completedRounds = st.completedRounds := by
  unfold nextRound
  rw [if_neg (by simp [hp])]
  simp

lemma padMatches_lt (index : Nat) (st : GameState)
    (hm : padMatches index st = true) :
    st.inputIndex < st.sequence.length := by
  unfold padMatches at hm
  rcases hx : st.sequence[st.inputIndex]? with _ | e
  · rw [hx] at hm
    cases hm
  · exact (List.getElem?_eq_some.mp hx).1

lemma inv_resetToIdleUI (st : GameState) : Inv (resetToIdleUI st) := by
  unfold Inv resetToIdleUI
  simp

lemma inv_finalizeRun (name : String) (strict : Bool) (t : Nat)
    (st : GameState) (lb : List ScoreEntry) :
    Inv (finalizeRun name strict t st lb).1 := by
  unfold Inv finalizeRun
  simp

lemma inv_showSequence (now : Nat) (st : GameState) (h : Inv st) :
    Inv (showSequence now st) := by
  unfold Inv at *
  simpa using h

lemma inv_nextRound (sig now : Nat) (st : GameState) (h : Inv st) :
    Inv (nextRound sig now st) := by
  unfold nextRound
  split
  · exact h
  · next hmode =>
    have hp : st.mode = .playing := not_ne_iff.mp hmode
    obtain ⟨h1, h2, h3⟩ := h
    have hcr : st.completedRounds ≤ st.round := by
      rcases h2 with h2 | h2
      · rw [hp] at h2
        cases h2
      · exact h2
    apply inv_showSequence
    unfold Inv
    refine ⟨by simp, Or.inr (by simp; omega), fun _ => ?_⟩
    simp [h3 hp]

lemma inv_startRun (sig now : Nat) (st : GameState) :
    Inv (startRun sig now st) := by
  unfold startRun
  apply inv_nextRound
  unfold Inv
  exact ⟨Nat.le_refl 0, Or.inr (Nat.le_refl 0), fun _ => rfl⟩

lemma inv_requestEndOp (now : Nat) (st : GameState) (h : Inv st)
    (hp : st.mode = .playing) : Inv (requestEndOp now st) := by
  obtain ⟨h1, h2, h3⟩ := h
  have hcr : st.completedRounds ≤ st.round := by
    rcases h2 with h2 | h2
    · rw [hp] at h2
      cases h2
    · exact h2
  unfold Inv requestEndOp
  refine ⟨by simpa using h1, Or.inr (by simpa using hcr), fun hc => ?_⟩
  simp at hc

lemma inv_handlePadPress (index now sig t : Nat) (name : String)
    (strict : Bool) (st : GameState) (lb : List ScoreEntry) (h : Inv st) :
    Inv (handlePadPress index now sig name strict t st lb).1 := by
  by_cases hg : st.mode ≠ .playing ∨ st.accepting = false
  · rw [handlePadPress_ignored index now sig t name strict st lb hg]
    exact h
  · have hmode : st.mode = .playing := not_ne_iff.mp (not_or.mp hg).1
    obtain ⟨h1, h2, h3⟩ := h
    have hcr : st.completedRounds ≤ st.round := by
      rcases h2 with h2 | h2
      · rw [hmode] at h2
        cases h2
      · exact h2
    have hlen : st.sequence.length = st.round := h3 hmode
    by_cases hm : padMatches index st = true
    · rw [handlePadPress_matched index now sig t name strict st lb hg hm]
      split



      · next hc =>
        apply inv_nextRound
        unfold Inv
        refine ⟨by simp; omega, Or.inr (by simp; omega), fun _ => ?_⟩
        simp [hlen]
      · next hc =>
        have hlt := padMatches_lt index st hm
        unfold Inv
        refine ⟨by simp; omega, Or.inr (by simpa using hcr), fun _ => ?_⟩
        simp [hlen]
    · rw [handlePadPress_mismatch index now sig t name strict st lb hg
        (by simpa using hm)]
      split
      · exact inv_finalizeRun name strict t _ lb
      · apply inv_showSequence
        unfold Inv
        refine ⟨by simp, Or.inr (by simpa using hcr), fun _ => ?_⟩
        simp [hlen]

lemma step_inv (w w2 : World) (hs : Step w w2) (h : Inv w.game) :
    Inv w2.game := by
  cases hs with
  | start name sig now hn hm => exact inv_startRun sig now w.game
  | press index now sig t name strict =>
      exact inv_handlePadPress index now sig t name strict w.game w.lb h
  | advance sig now => exact inv_nextRound sig now w.game h
  | requestEnd now hm => exact inv_requestEndOp now w.game h hm
  | finalize name strict t hm =>
      exact inv_finalizeRun name strict t w.game w.lb
  | reset hm => exact inv_resetToIdleUI w.game

lemma reachable_inv (w : World) (hw : Reachable w) : Inv w.game := by
  induction hw with
  | refl => exact ⟨Nat.le_refl 0, Or.inr (Nat.le_refl 0), fun _ => rfl⟩
  | tail _ hstep ih => exact step_inv _ _ hstep ih

lemma step_growth (w1 w2 : World) (hs : Step w1 w2)
    (hp1 : w1.game.mode = .playing) (hp2 : w2.game.mode = .playing) :
    (w2.game.sequence = w1.game.sequence ∧ w2.game.round = w1.game.round)
    ∨ (List.IsPrefix w1.game.sequence w2.game.sequence
        ∧ w2.game.sequence.length = w1.game.sequence.length + 1
        ∧ w2.game.round = w1.game.round + 1) := by
  cases hs with
  | start name sig now hn hm =>
      rw [hm] at hp1
      cases hp1
  | press index now sig t name strict =>
      by_cases hg : w1.game.mode ≠ .playing ∨ w1.game.accepting = false
      · rw [handlePadPress_ignored index now sig t name strict w1.game
          w1.lb hg]
        exact Or.inl ⟨rfl, rfl⟩
      · by_cases hm : padMatches index w1.game = true
        · rw [handlePadPress_matched index now sig t name strict w1.game
            w1.lb hg hm]
          split
          · next hc =>
            right
            have hmode3 : (enablePads false now
                { recordResult true (maybeRecordReaction now w1.game) with
                  inputIndex := w1.game.inputIndex + 1
                  completedRounds :=
                    max w1.game.completedRounds w1.game.round }).mode
                = Mode.playing := by
              simpa using hp1
            have hnr := nextRound_playing sig now _ hmode3
            refine ⟨?_, ?_, ?_⟩
            · rw [hnr.1]
              exact ⟨[sig], by simp⟩
            · rw [hnr.1]
              simp
            · rw [hnr.2.1]
              simp
          · exact Or.inl ⟨by simp, by simp⟩
        · rw [handlePadPress_mismatch index now sig t name strict w1.game
            w1.lb hg (by simpa using hm)] at hp2 ⊢
          split at hp2
          · simp [finalizeRun] at hp2
          · next hstrict =>
            rw [if_neg hstrict]
            exact Or.inl ⟨by simp, by simp⟩
  | advance sig now =>
      right
      have hnr := nextRound_playing sig now w1.game hp1
      refine ⟨?_, ?_, ?_⟩
      · rw [hnr.1]
        exact ⟨[sig], rfl⟩
      · rw [hnr.1]
        simp
      · exact hnr.2.1
  | requestEnd now hm =>
      exfalso
      have : (requestEndOp now w1.game).mode = Mode.gameending := by
        simp [requestEndOp]
      rw [this] at hp2
      cases hp2
  | finalize name strict t hm =>
      exfalso
      have : (finalizeRun name strict t w1.game w1.lb).1.mode
          = Mode.gameover := rfl
      rw [this] at hp2
      cases hp2
  | reset hm =>
      exfalso
      have : (resetToIdleUI w1.game).mode = Mode.idle := rfl
      rw [this] at hp2
      cases hp2

/-- C1 as stated is false: `finalizeRun` clears `round` to 0 but leaves
`completedRounds` in place, so the reachable gameover state after a run
with one completed round has completedRounds = 1 > round = 0.  The trace:
start("a"), correctly reproduce round 1, request end, finalize. -/
theorem completedRounds_le_round_fails :
    Reachable c1w4 ∧ c1w4.game.round < c1w4.game.completedRounds := by
  constructor
  · have s1 : Step initWorld c1w1 := Step.start initWorld "a" 2 5 (by simp) rfl
    have s2 : Step c1w1 c1w2 := Step.press c1w1 2 9 1 0 "a" false
    have s3 : Step c1w2 c1w3 := Step.requestEnd c1w2 10 (by decide)
    have s4 : Step c1w3 c1w4 := Step.finalize c1w3 "a" false 11 (by decide)
    exact Relation.ReflTransGen.tail
      (Relation.ReflTransGen.tail
        (Relation.ReflTransGen.tail (Relation.ReflTransGen.single s1) s2) s3)
      s4
  · decide

/-- C1 (amended): in every reachable engine state, inputIndex never passes
the sequence length, and completedRounds ≤ round except in gameover states
(finalize clears round but keeps completedRounds until reset); while the
engine stays in playing mode a step either leaves the sequence and round
unchanged or extends the sequence by exactly one element while bumping the
round by one, so within a run the sequence never shrinks and grows by
exactly one element per round, its length matching the round number. -/
theorem engine_invariants (w w1 w2 : World) (hw : Reachable w)
    (hs : Step w1 w2) (hp1 : w1.game.mode = .playing)
    (hp2 : w2.game.mode = .playing) :
    (w.game.inputIndex ≤ w.game.sequence.length
      ∧ (w.game.mode = .gameover ∨ w.game.completedRounds ≤ w.game.round)
      ∧ (w.game.mode = .playing → w.game.sequence.length = w.game.round))
    ∧ ((w2.game.sequence = w1.game.sequence
          ∧ w2.game.round = w1.game.round)
        ∨ (List.IsPrefix w1.game.sequence w2.game.sequence
            ∧ w2.game.sequence.length = w1.game.sequence.length + 1
            ∧ w2.game.round = w1.game.round + 1)) :=
  ⟨reachable_inv w hw, step_growth w1 w2 hs hp1 hp2⟩

/-- Witness for the amended C1 along the concrete trace: the state after
starting a run, and the press step that completes round 1 and advances to
round 2. -/
theorem engine_invariants_witness :
    (c1w1.game.inputIndex ≤ c1w1.game.sequence.length
      ∧ (c1w1.game.mode = .gameover
          ∨ c1w1.game.completedRounds ≤ c1w1.game.round)
      ∧ (c1w1.game.mode = .playing
          → c1w1.game.sequence.length = c1w1.game.round))
    ∧ ((c1w2.game.sequence = c1w1.game.sequence
          ∧ c1w2.game.round = c1w1.game.round)
        ∨ (List.IsPrefix c1w1.game.sequence c1w2.game.sequence
            ∧ c1w2.game.sequence.length = c1w1.game.sequence.length + 1
            ∧ c1w2.game.round = c1w1.game.round + 1)) :=
  engine_invariants c1w1 c1w1 c1w2
    (Relation.ReflTransGen.single (Step.start initWorld "a" 2 5 (by simp) rfl))
    (Step.press c1w1 2 9 1 0 "a" false) (by decide) (by decide)

/-- C8 as stated is false: one reaction sample is recorded per playback,
not per round.  After a non-strict mismatch the same round replays and its
next first input records a second sample: along the concrete trace
(start, wrong pad at 100ms, wrong pad again at 300ms) the engine is still
in round 1 yet holds two reaction samples. -/
theorem one_reaction_sample_per_round_fails :
    Reachable c8w3
    ∧ c8w2.game.round = 1 ∧ c8w2.game.rts.length = 1
    ∧ c8w3.game.round = 1 ∧ c8w3.game.rts.length = 2 := by
  constructor
  · have s1 : Step initWorld c8w1 := Step.start initWorld "a" 2 5 (by simp) rfl
    have s2 : Step c8w1 c8w2 := Step.press c8w1 0 100 1 0 "a" false
    have s3 : Step c8w2 c8w3 := Step.press c8w2 0 300 1 0 "a" false
    exact Relation.ReflTransGen.tail
      (Relation.ReflTransGen.tail (Relation.ReflTransGen.single s1) s2) s3
  · exact ⟨by decide, by decide, by decide, by decide⟩

lemma handlePadPress_rts (index now sig t : Nat) (name : String)
    (strict : Bool) (st : GameState) (lb : List ScoreEntry)
    (hg : ¬(st.mode ≠ .playing ∨ st.accepting = false)) :
    (handlePadPress index now sig name strict t st lb).1.rts
      = (maybeRecordReaction now st).rts := by
  by_cases hm : padMatches index st = true
  · rw [handlePadPress_matched index now sig t name strict st lb hg hm]
    split
    · simp [nextRound_rts]
    · simp
  · rw [handlePadPress_mismatch index now sig t name strict st lb hg
      (by simpa using hm)]
    split
    · simp
    · simp

/-- C8 (amended): an accepted press records a reaction sample exactly when
it is the first input after a playback (inputIndex 0, nonzero enable
timestamp) — then precisely one sample is appended and it is `now` minus
the enable timestamp clamped into [50, 2000]; any other accepted press
leaves the history untouched; the history is bounded by rtWindow (24) and a
push into a full history evicts the oldest sample (FIFO).  A round replayed
after a non-strict mismatch records one sample per replay. -/
theorem reaction_recording_spec (index now sig t ms : Nat) (name : String)
    (strict : Bool) (st st6 st7 : GameState) (lb lb6 : List ScoreEntry)
    (hmode : st.mode = .playing) (hacc : st.accepting = true)
    (h0 : st.inputIndex = 0) (hts : st.padEnableTs ≠ 0)
    (hmode6 : st6.mode = .playing) (hacc6 : st6.accepting = true)
    (h6 : st6.inputIndex ≠ 0 ∨ st6.padEnableTs = 0)
    (hbound : st.rts.length ≤ rtWindow) (hfull : st7.rts.length = rtWindow) :
    (handlePadPress index now sig name strict t st lb).1.rts
        = (pushReaction (now - st.padEnableTs) st).rts
    ∧ (handlePadPress index now sig name strict t st6 lb6).1.rts = st6.rts
    ∧ (pushReaction ms st).rts
        = (if rtWindow < st.rts.length + 1
           then (st.rts ++ [max 50 (min 2000 ms)]).tail
           else st.rts ++ [max 50 (min 2000 ms)])
    ∧ 50 ≤ max 50 (min 2000 ms) ∧ max 50 (min 2000 ms) ≤ 2000
    ∧ (pushReaction ms st).rts.length ≤ rtWindow
    ∧ (pushReaction ms st7).rts = st7.rts.tail ++ [max 50 (min 2000 ms)] := by
  have hg : ¬(st.mode ≠ .playing ∨ st.accepting = false) := by
    simp [hmode, hacc]
  have hg6 : ¬(st6.mode ≠ .playing ∨ st6.accepting = false) := by
    simp [hmode6, hacc6]
  have hpush : ∀ (m : Nat) (s : GameState), (pushReaction m s).rts
      = (if rtWindow < s.rts.length + 1
         then (s.rts ++ [max 50 (min 2000 m)]).tail
         else s.rts ++ [max 50 (min 2000 m)]) := by
    intro m s
    simp [pushReaction]
  refine ⟨?_, ?_, hpush ms st, le_max_left _ _, ?_, ?_, ?_⟩
  · rw [handlePadPress_rts index now sig t name strict st lb hg]
    unfold maybeRecordReaction
    rw [if_pos ⟨h0, hts⟩]
  · rw [handlePadPress_rts index now sig t name strict st6 lb6 hg6]
    unfold maybeRecordReaction
    rw [if_neg (by tauto)]
  · have : min 2000 ms ≤ 2000 := min_le_left _ _
    omega
  · rw [hpush]
    unfold rtWindow at *
    split
    · next hlt =>
      simp only [List.length_tail, List.length_append, List.length_cons,
        List.length_nil]
      omega
    · next hge =>
      simp only [List.length_append, List.length_cons, List.length_nil]
      omega
  · rw [hpush]
    rw [if_pos (by unfold rtWindow at *; omega)]
    have hne : st7.rts ≠ [] := by
      intro hh
      rw [hh] at hfull
      simp [rtWindow] at hfull
    rw [List.tail_append_of_ne_nil hne]

/-- Witness for the amended C8: a first input at 300ms after enable, a
second input recording nothing, a clamped sample of 7ms, and eviction from
a full 24-sample history. -/
theorem reaction_recording_spec_witness :
    (handlePadPress 3 305 1 "P" false 11
        { mode := .playing, sequence := [2], accepting := true,
          padEnableTs := 5 } []).1.rts
        = (pushReaction
            (305 - ({ mode := .playing, sequence := [2], accepting := true,
                      padEnableTs := 5 } : GameState).padEnableTs)
            { mode := .playing, sequence := [2], accepting := true,
              padEnableTs := 5 }).rts
    ∧ (handlePadPress 3 305 1 "P" false 11
        { mode := .playing, sequence := [2, 0], accepting := true,
          inputIndex := 1, padEnableTs := 5 } []).1.rts
        = ({ mode := .playing, sequence := [2, 0], accepting := true,
             inputIndex := 1, padEnableTs := 5 } : GameState).rts
    ∧ (pushReaction 7
        { mode := .playing, sequence := [2], accepting := true,
          padEnableTs := 5 }).rts
        = (if rtWindow
              < ({ mode := .playing, sequence := [2], accepting := true,
                   padEnableTs := 5 } : GameState).rts.length + 1
           then (({ mode := .playing, sequence := [2], accepting := true,
                    padEnableTs := 5 } : GameState).rts
               ++ [max 50 (min 2000 7)]).tail
           else ({ mode := .playing, sequence := [2], accepting := true,
                   padEnableTs := 5 } : GameState).rts
               ++ [max 50 (min 2000 7)])
    ∧ 50 ≤ max 50 (min 2000 7) ∧ max 50 (min 2000 7) ≤ 2000
    ∧ (pushReaction 7
        { mode := .playing, sequence := [2], accepting := true,
          padEnableTs := 5 }).rts.length ≤ rtWindow
    ∧ (pushReaction 7 { rts := List.replicate 24 100 }).rts
        = ({ rts := List.replicate 24 100 } : GameState).rts.tail
          ++ [max 50 (min 2000 7)] :=
  reaction_recording_spec 3 305 1 11 7 "P" false
    { mode := .playing, sequence := [2], accepting := true, padEnableTs := 5 }
    { mode := .playing, sequence := [2, 0], accepting := true,
      inputIndex := 1, padEnableTs := 5 }
    { rts := List.replicate 24 100 } [] []
    rfl rfl rfl (by decide) rfl rfl (Or.inl (by decide)) (by decide)
    (by decide)

end Simon
